import Mathlib

/-
Verification development for the internal-tools-platform repository.

The repository documents a shared Authentication / Authorization / Audit
service consumed by several Next.js applications.  The code artifacts that
appear verbatim in the repository (the CacheService class in
docs/architecture/overview.md, the getAuthContext helper and the API route
pattern in docs/creating-new-apps.md, the response envelope formats in
docs/api/shared-services-api.md and ADR-003) are embedded directly.  The
service internals that the repository only documents (Credential Verifier,
Token Codec, Session Registry, Permission Evaluator, Tenant Guard, Layered
Cache used by the evaluator) are modelled from the specification, as marked
in the doc comment of each such definition.
-/

namespace ITP

/-! ## Association-list maps

Small executable maps used to model the JavaScript Map objects, the Redis
key-value store and the relational store.  Keys are compared with decidable
equality. -/

def alookup {κ α : Type} [DecidableEq κ] : List (κ × α) → κ → Option α
  | [], _ => none
  | p :: t, k => if p.1 = k then some p.2 else alookup t k

def aerase {κ α : Type} [DecidableEq κ] : List (κ × α) → κ → List (κ × α)
  | [], _ => []
  | p :: t, k => if p.1 = k then aerase t k else p :: aerase t k

def aset {κ α : Type} [DecidableEq κ] (m : List (κ × α)) (k : κ) (v : α) : List (κ × α) :=
  (k, v) :: aerase m k

theorem alookup_aerase {κ α : Type} [DecidableEq κ] (m : List (κ × α)) (k : κ) :
    alookup (aerase m k) k = none := by
  induction m with
  | nil => rfl
  | cons p t ih =>
    by_cases hp : p.1 = k
    · simpa [aerase, hp] using ih
    · simpa [aerase, alookup, hp] using ih

theorem alookup_aerase_ne {κ α : Type} [DecidableEq κ] (m : List (κ × α)) (k k' : κ)
    (h : k' ≠ k) : alookup (aerase m k) k' = alookup m k' := by
  induction m with
  | nil => rfl
  | cons p t ih =>
    by_cases hp : p.1 = k
    · have hp' : p.1 ≠ k' := by rw [hp]; exact Ne.symm h
      simpa [aerase, alookup, hp, hp', Ne.symm h] using ih
    · by_cases hq : p.1 = k'
      · simp [aerase, alookup, hp, hq, h]
      · simpa [aerase, alookup, hp, hq] using ih

theorem alookup_aset {κ α : Type} [DecidableEq κ] (m : List (κ × α)) (k : κ) (v : α) :
    alookup (aset m k v) k = some v := by
  simp [aset, alookup]

theorem alookup_aset_ne {κ α : Type} [DecidableEq κ] (m : List (κ × α)) (k k' : κ) (v : α)
    (h : k' ≠ k) : alookup (aset m k v) k' = alookup m k' := by
  simp only [aset, alookup, Ne.symm h, if_neg (Ne.symm h)]
  exact alookup_aerase_ne m k k' h

theorem aerase_aerase {κ α : Type} [DecidableEq κ] (m : List (κ × α)) (k : κ) :
    aerase (aerase m k) k = aerase m k := by
  induction m with
  | nil => rfl
  | cons p t ih =>
    by_cases hp : p.1 = k
    · simpa [aerase, hp] using ih
    · simpa [aerase, hp] using ih

theorem aset_aset {κ α : Type} [DecidableEq κ] (m : List (κ × α)) (k : κ) (v v' : α) :
    aset (aset m k v) k v' = aset m k v' := by
  simp [aset, aerase, aerase_aerase]

theorem alookup_aset_isSome {κ α : Type} [DecidableEq κ] (m : List (κ × α)) (k k' : κ) (v : α)
    (h : (alookup m k').isSome = true) : (alookup (aset m k v) k').isSome = true := by
  by_cases hk : k' = k
  · subst hk; rw [alookup_aset]; rfl
  · rw [alookup_aset_ne m k k' v hk]; exact h

/-! ## CacheService (docs/architecture/overview.md, lines 362-388)

Embedding of the multi-level caching class shown verbatim in the
architecture overview.  JavaScript values are modelled with their
truthiness; a `Map.get` on an absent key yields `undefined`, which is
falsy, exactly like a present falsy value. -/

inductive JSVal : Type
  | undef : JSVal
  | jsNull : JSVal
  | bool : Bool → JSVal
  | num : Int → JSVal
  | str : String → JSVal
deriving DecidableEq, Repr

/-- JavaScript truthiness of the modelled values. -/
def truthy : JSVal → Bool
  | .undef => false
  | .jsNull => false
  | .bool b => b
  | .num n => decide (n ≠ 0)
  | .str s => decide (s ≠ "")

/-- JavaScript Map.get / redis get / database get: an absent key yields
undefined. -/
def jsGet (m : List (String × JSVal)) (k : String) : JSVal :=
  (alookup m k).getD .undef

structure CacheServiceState : Type where
  memoryCache : List (String × JSVal)
  redisClient : List (String × JSVal)
  database : List (String × JSVal)
deriving DecidableEq, Repr

/-- Result of one CacheService.get call: the returned value, the state of
the three layers afterwards, and which of the two lower layers the call
consulted. -/
structure CacheGetResult : Type where
  value : JSVal
  state : CacheServiceState
  redisConsulted : Bool
  dbConsulted : Bool
deriving DecidableEq, Repr

/-- CacheService.get from docs/architecture/overview.md: check the
in-memory map first, then Redis (populating memory on a hit), then the
database (populating both layers).  Each `if (value)` in the source is a
JavaScript truthiness test. -/
def cacheServiceGet (s : CacheServiceState) (key : String) : CacheGetResult :=
  let value := jsGet s.memoryCache key
  if truthy value then ⟨value, s, false, false⟩
  else
    let value := jsGet s.redisClient key
    if truthy value then
      ⟨value, { s with memoryCache := aset s.memoryCache key value }, true, false⟩
    else
      let value := jsGet s.database key
      ⟨value,
       { s with
          redisClient := aset s.redisClient key value,
          memoryCache := aset s.memoryCache key value },
       true, true⟩

theorem jsGet_aset (m : List (String × JSVal)) (k : String) (v : JSVal) :
    jsGet (aset m k v) k = v := by
  simp [jsGet, alookup_aset]

/-- C10: after CacheService.get(key) returns a value, that value sits in the
process-local memory cache; if the returned value is truthy, an immediately
repeated get of the same key returns the same value, leaves the state
unchanged and consults neither the distributed cache nor the database; a
falsy value stored in the memory cache is treated as a miss (the call falls
through to Redis); and get never removes a key from the memory cache, which
together with the class exposing only get means no entry is ever
invalidated or deleted. -/
theorem cacheService_get_properties (s : CacheServiceState) (key : String) :
    jsGet (cacheServiceGet s key).state.memoryCache key = (cacheServiceGet s key).value ∧
    (truthy (cacheServiceGet s key).value = true →
      (cacheServiceGet (cacheServiceGet s key).state key).value = (cacheServiceGet s key).value ∧
      (cacheServiceGet (cacheServiceGet s key).state key).redisConsulted = false ∧
      (cacheServiceGet (cacheServiceGet s key).state key).dbConsulted = false ∧
      (cacheServiceGet (cacheServiceGet s key).state key).state = (cacheServiceGet s key).state) ∧
    (truthy (jsGet s.memoryCache key) = false → (cacheServiceGet s key).redisConsulted = true) ∧
    (∀ k, (alookup s.memoryCache k).isSome = true →
      (alookup (cacheServiceGet s key).state.memoryCache k).isSome = true) := by
  by_cases h1 : truthy (jsGet s.memoryCache key) = true
  · refine ⟨?_, ?_, ?_, ?_⟩
    · simp [cacheServiceGet, h1]
    · intro _
      simp [cacheServiceGet, h1]
    · intro hfalse
      rw [h1] at hfalse
      exact absurd hfalse (by simp)
    · intro k hk
      simpa [cacheServiceGet, h1] using hk
  · have h1' : truthy (jsGet s.memoryCache key) = false := by
      cases hb : truthy (jsGet s.memoryCache key)
      · rfl
      · exact absurd hb h1
    by_cases h2 : truthy (jsGet s.redisClient key) = true
    · have hres : cacheServiceGet s key =
          ⟨jsGet s.redisClient key,
           { s with memoryCache := aset s.memoryCache key (jsGet s.redisClient key) },
           true, false⟩ := by
        simp [cacheServiceGet, h1', h2]
      refine ⟨?_, ?_, ?_, ?_⟩
      · rw [hres]; exact jsGet_aset _ _ _
      · intro hv
        rw [hres] at hv ⊢
        have hmem : jsGet (aset s.memoryCache key (jsGet s.redisClient key)) key =
            jsGet s.redisClient key := jsGet_aset _ _ _
        simp only [cacheServiceGet]
        simp [hmem, hv]
      · intro _; rw [hres]
      · intro k hk
        rw [hres]
        exact alookup_aset_isSome _ _ _ _ hk
    · have h2' : truthy (jsGet s.redisClient key) = false := by
        cases hb : truthy (jsGet s.redisClient key)
        · rfl
        · exact absurd hb h2
      have hres : cacheServiceGet s key =
          ⟨jsGet s.database key,
           { s with
              redisClient := aset s.redisClient key (jsGet s.database key),
              memoryCache := aset s.memoryCache key (jsGet s.database key) },
           true, true⟩ := by
        simp [cacheServiceGet, h1', h2']
      refine ⟨?_, ?_, ?_, ?_⟩
      · rw [hres]; exact jsGet_aset _ _ _
      · intro hv
        rw [hres] at hv ⊢
        have hmem : jsGet (aset s.memoryCache key (jsGet s.database key)) key =
            jsGet s.database key := jsGet_aset _ _ _
        simp only [cacheServiceGet]
        simp [hmem, hv]
      · intro _; rw [hres]
      · intro k hk
        rw [hres]
        exact alookup_aset_isSome _ _ _ _ hk

/-- Concrete three-layer state for the C10 witness: empty memory and Redis
layers, one record in the database. -/
def cacheWitnessState : CacheServiceState :=
  ⟨[], [], [("user:1", .str "cached-user")]⟩

/-- C10 witness: on the concrete state the fetched value is truthy, is
present in the memory cache afterwards, and the repeated get touches
neither Redis nor the database. -/
theorem cacheService_get_properties_witness :
    truthy (cacheServiceGet cacheWitnessState "user:1").value = true ∧
    ((cacheServiceGet (cacheServiceGet cacheWitnessState "user:1").state "user:1").value =
        (cacheServiceGet cacheWitnessState "user:1").value ∧
      (cacheServiceGet (cacheServiceGet cacheWitnessState "user:1").state "user:1").redisConsulted = false ∧
      (cacheServiceGet (cacheServiceGet cacheWitnessState "user:1").state "user:1").dbConsulted = false ∧
      (cacheServiceGet (cacheServiceGet cacheWitnessState "user:1").state "user:1").state =
        (cacheServiceGet cacheWitnessState "user:1").state) :=
  ⟨by decide,
   (cacheService_get_properties cacheWitnessState "user:1").2.1 (by decide)⟩

/-! ## getAuthContext and the API route pattern (docs/creating-new-apps.md)

Embedding of the authentication helper and the GET route pattern shown in
the app-creation guide.  The helper reads the authorization header, strips
the bearer marker with the JavaScript string replace (first occurrence),
returns null for a missing or empty token, and converts every verification
failure into null through its catch-all. -/

/-- Remove the pattern from the front of a character list when it matches
there. -/
def dropPat : List Char → List Char → Option (List Char)
  | [], rest => some rest
  | _ :: _, [] => none
  | p :: ps, d :: ds => if d = p then dropPat ps ds else none

/-- Strip the first occurrence of a pattern from a character list, the
semantics of the JavaScript replace with an empty replacement. -/
def stripFirst (pat : List Char) : List Char → List Char
  | [] => []
  | c :: cs =>
    match dropPat pat (c :: cs) with
    | some rest => rest
    | none => c :: stripFirst pat cs

/-- The token extraction of getAuthContext:
request.headers.get(authorization)?.replace(Bearer-space, empty). -/
def stripBearer (h : String) : String :=
  ⟨stripFirst "Bearer ".toList h.toList⟩

/-- AuthContext returned by the shared-services verify endpoint (fields
from the documented Verify Token response). -/
structure AuthContext : Type where
  userId : String
  orgId : String
  email : String
  permissions : List String
  sessionId : String
deriving DecidableEq, Repr

/-- Failure kinds of token verification (documented error codes AUTH_002
token expired, AUTH_003 token malformed, plus bad signature and a revoked
session). -/
inductive TokenError : Type
  | malformed : TokenError
  | expired : TokenError
  | badSignature : TokenError
  | revokedSession : TokenError
deriving DecidableEq, Repr

/-- getAuthContext from docs/creating-new-apps.md: null when the header is
absent, null when the stripped token is empty (JavaScript falsy check), and
null whenever verifyToken fails, through the surrounding try/catch. -/
def getAuthContext (verifyToken : String → Except TokenError AuthContext)
    (authHeader : Option String) : Option AuthContext :=
  match authHeader with
  | none => none
  | some h =>
    let token := stripBearer h
    if token = "" then none
    else
      match verifyToken token with
      | .ok ctx => some ctx
      | .error _ => none

/-- Response produced by the documented GET route pattern: an HTTP status
code plus the serialized status / message body fields. -/
structure RouteResponse : Type where
  httpStatus : Nat
  bodyStatus : String
  bodyMessage : String
deriving DecidableEq, Repr

/-- The single 401 response the route pattern produces for every
authentication failure. -/
def unauthorizedResponse : RouteResponse := ⟨401, "error", "Unauthorized"⟩

/-- The 403 response of the permission check in the route pattern. -/
def forbiddenResponse : RouteResponse := ⟨403, "error", "Forbidden"⟩

/-- The GET API route pattern from docs/creating-new-apps.md: authenticate
via getAuthContext, answer 401 on null, then check the skills:read
permission with an exact membership test, answer 403 when absent, and run
the handler otherwise. -/
def routeGET (verifyToken : String → Except TokenError AuthContext)
    (authHeader : Option String) (handler : AuthContext → RouteResponse) : RouteResponse :=
  match getAuthContext verifyToken authHeader with
  | none => unauthorizedResponse
  | some ctx =>
    if ctx.permissions.contains "skills:read" then handler ctx
    else forbiddenResponse

/-- C9: getAuthContext maps every authentication failure to null rather
than raising: a missing header gives null, and whatever error token
verification produces (malformed, expired, bad signature or revoked
session) the result is null; consequently, whenever getAuthContext yields
null the route pattern produces the one fixed 401 Unauthorized response,
independent of the failure kind and of the handler. -/
theorem getAuthContext_uniform_unauthorized
    (verifyToken : String → Except TokenError AuthContext)
    (authHeader : Option String) :
    (authHeader = none → getAuthContext verifyToken authHeader = none) ∧
    (∀ h e, authHeader = some h → verifyToken (stripBearer h) = .error e →
      getAuthContext verifyToken authHeader = none) ∧
    (∀ handler, getAuthContext verifyToken authHeader = none →
      routeGET verifyToken authHeader handler = unauthorizedResponse) := by
  refine ⟨?_, ?_, ?_⟩
  · intro h; rw [h]; rfl
  · intro h e hh he
    rw [hh]
    simp only [getAuthContext]
    by_cases ht : stripBearer h = ""
    · simp [ht]
    · simp [ht, he]
  · intro handler hnone
    simp [routeGET, hnone]

/-- Concrete verifier for the C9 witness: every token fails as expired. -/
def alwaysExpired : String → Except TokenError AuthContext :=
  fun _ => .error .expired

/-- Concrete handler for the C9 witness. -/
def okHandler : AuthContext → RouteResponse :=
  fun _ => ⟨200, "success", "ok"⟩

/-- C9 witness: with a concrete bearer header whose token verification
fails as expired, getAuthContext is null and the route answers with the
fixed 401 response. -/
theorem getAuthContext_uniform_unauthorized_witness :
    getAuthContext alwaysExpired (some "Bearer abc123") = none ∧
    routeGET alwaysExpired (some "Bearer abc123") okHandler = unauthorizedResponse := by
  have h := getAuthContext_uniform_unauthorized alwaysExpired (some "Bearer abc123")
  have hn := h.2.1 "Bearer abc123" .expired rfl (by rfl)
  exact ⟨hn, h.2.2 okHandler hn⟩

/-! ## Response envelope (docs/api/shared-services-api.md, Response Format)

Embedding of the two documented envelope shapes of the shared-services
API: the Success Response and the Error Response.  Optional record fields
stand for JSON fields the respective format documents; `none` means the
field does not appear in that format. -/

structure PaginationMeta : Type where
  page : Nat
  limit : Nat
  total : Nat
  pages : Nat
  hasNext : Bool
  hasPrev : Bool
deriving DecidableEq, Repr

structure FieldIssue : Type where
  field : String
  message : String
deriving DecidableEq, Repr

structure Envelope : Type where
  data : Option String
  status : String
  message : Option String
  code : Option String
  errors : Option (List FieldIssue)
  timestamp : Option String
  path : Option String
  pagination : Option PaginationMeta
deriving DecidableEq, Repr

/-- The documented Success Response format (shared-services-api.md): data
payload, status success, message, pagination. -/
def successResponseFormat : Envelope :=
  { data := some "\x7b\x7d"
    status := "success"
    message := some "Operation completed successfully"
    code := none
    errors := none
    timestamp := none
    path := none
    pagination := some ⟨1, 20, 100, 5, true, false⟩ }

/-- The documented Error Response format (shared-services-api.md): status
error, message, machine-readable code, field errors, timestamp and path,
and no data payload. -/
def errorResponseFormat : Envelope :=
  { data := none
    status := "error"
    message := some "Error description"
    code := some "ERROR_CODE"
    errors := some [⟨"email", "Invalid email format"⟩]
    timestamp := some "2025-06-12T14:00:00Z"
    path := some "/api/v1/users"
    pagination := none }

/-- C8 counterexample: the claim requires every gateway response envelope
to contain a data payload, but the documented Error Response format is a
gateway response with status error and no data field at all. -/
theorem errorResponseFormat_lacks_data :
    errorResponseFormat.status = "error" ∧ errorResponseFormat.data = none := by
  exact ⟨rfl, rfl⟩

/-- C8 amended: every documented shared-services envelope carries a status
discriminator equal to success or error; the success envelope carries a
data payload; the error envelope carries a machine-readable code and a
human-readable message, but no data payload. -/
theorem envelope_status_and_error_fields :
    successResponseFormat.status = "success" ∧
    successResponseFormat.data ≠ none ∧
    errorResponseFormat.status = "error" ∧
    errorResponseFormat.code ≠ none ∧
    errorResponseFormat.message ≠ none ∧
    errorResponseFormat.data = none := by
  refine ⟨rfl, by decide, rfl, by decide, by decide, rfl⟩

/-! ## Refresh token format (docs/api/shared-services-api.md, Login)

The documented login response shows the refresh token value.  Its leading
segment is standard base64 text; decoding it reveals the JSON header of a
JWT, so the repository hands out refresh tokens that are structured signed
tokens, matching the README line stating the stack uses JWT with refresh
tokens. -/

/-- The refreshToken value shown in the documented Login response (the
trailing dots are the truncation used by the documentation). -/
def loginResponseRefreshToken : String :=
  "eyJhbGciOiJIUzI1NiIsInR5cCI6IkpXVCJ9..."

/-- The accessToken value shown in the same documented Login response. -/
def loginResponseAccessToken : String :=
  "eyJhbGciOiJIUzI1NiIsInR5cCI6IkpXVCJ9..."

/-- Numeric value of one character of the standard base64 alphabet. -/
def b64Val (c : Char) : Nat :=
  if 'A' ≤ c ∧ c ≤ 'Z' then c.toNat - 'A'.toNat
  else if 'a' ≤ c ∧ c ≤ 'z' then c.toNat - 'a'.toNat + 26
  else if '0' ≤ c ∧ c ≤ '9' then c.toNat - '0'.toNat + 52
  else if c = '+' then 62
  else if c = '/' then 63
  else 0

/-- Decode base64 text (without padding) into its bytes, four characters at
a time. -/
def b64DecodeBytes : List Char → List Nat
  | a :: b :: c :: d :: rest =>
    let n := b64Val a * 2 ^ 18 + b64Val b * 2 ^ 12 + b64Val c * 2 ^ 6 + b64Val d
    n / 2 ^ 16 :: n / 2 ^ 8 % 2 ^ 8 :: n % 2 ^ 8 :: b64DecodeBytes rest
  | _ => []

/-- Reassemble decoded bytes into a string. -/
def bytesToString (bs : List Nat) : String :=
  ⟨bs.map Char.ofNat⟩

/-- The first 36 characters of a token: the length of the base64 JWT
header segment the documented tokens start with. -/
def headerSegment (t : String) : String :=
  ⟨t.toList.take 36⟩

/-- Base64 decoding of the leading segment of a token. -/
def decodedHeaderOf (t : String) : String :=
  bytesToString (b64DecodeBytes (headerSegment t).toList)

/-- The JSON text of a JWT header declaring the HS256 algorithm. -/
def jwtHS256Header : String :=
  "\x7b\"alg\":\"HS256\",\"typ\":\"JWT\"\x7d"

/-- A token carries an encoded JWT claims header when its leading segment
base64-decodes to the HS256 JWT header JSON. -/
def carriesJWTHeader (t : String) : Bool :=
  decodedHeaderOf t = jwtHS256Header

/-- C5 counterexample: the refresh token in the documented login response
is not an opaque claims-free random string; its leading segment
base64-decodes to the JSON header of an HS256 JWT, so the token carries
encoded claims structure. -/
theorem loginRefreshToken_not_claim_free :
    carriesJWTHeader loginResponseRefreshToken = true := by decide

/-- C5 amended: the refresh token returned by the documented login
operation is a JWT-format structured token, with the same HS256 JWT header
segment as the access token, rather than an opaque claims-free random
string. -/
theorem loginRefreshToken_is_jwt :
    decodedHeaderOf loginResponseRefreshToken = jwtHS256Header ∧
    headerSegment loginResponseRefreshToken = headerSegment loginResponseAccessToken := by
  exact ⟨by decide, by decide⟩

/-! ## Core data model

Modelled from the spec: the repository only documents the shared
Authentication / Authorization / Audit service (its implementation lives in
the services workspace, which is not part of the published sources), so the
Identity, Claims and AuditEvent records follow section 3 of the
specification. -/

/-- Modelled from the spec: Identity status, section 3. -/
inductive IdStatus : Type
  | active : IdStatus
  | locked : IdStatus
  | disabled : IdStatus
deriving DecidableEq, Repr

/-- Modelled from the spec: Identity, section 3 (identity id, tenant id,
credential hash, status, capability set, version counter). -/
structure Identity : Type where
  idTag : String
  tenantId : String
  credentialHash : String
  status : IdStatus
  capabilities : List String
  version : Nat
deriving DecidableEq, Repr

/-- Modelled from the spec: the claim bundle embedded in an access token,
section 3 (identity id, tenant id, capability snapshot, embedded identity
version, session id back-reference). -/
structure Claims : Type where
  identityId : String
  tenantId : String
  capabilities : List String
  identityVersion : Nat
  sessionId : String
deriving DecidableEq, Repr

/-- Modelled from the spec: AuditEvent outcome, section 3. -/
inductive Outcome : Type
  | success : Outcome
  | failure : Outcome
deriving DecidableEq, Repr

/-- Modelled from the spec: AuditEvent severity; section 4.5 records an
elevated severity for permitted cross-tenant access. -/
inductive Severity : Type
  | normal : Severity
  | elevated : Severity
deriving DecidableEq, Repr

/-- Modelled from the spec: AuditEvent, section 3 (tenant id, actor
identity id nullable, action name, outcome) with the severity of section
4.5. -/
structure AuditEvent : Type where
  tenantId : String
  actorId : Option String
  action : String
  outcome : Outcome
  severity : Severity
deriving DecidableEq, Repr

/-- Modelled from the spec: deny reasons of the Permission Evaluator and
Tenant Guard, sections 4.4, 4.5 and 7. -/
inductive DenyReason : Type
  | stalePermissions : DenyReason
  | insufficientPermissions : DenyReason
  | identityNotFound : DenyReason
  | tenantMismatch : DenyReason
deriving DecidableEq, Repr

/-- Modelled from the spec: authorize returns Allow or Deny with a reason,
section 4.4. -/
inductive Decision : Type
  | allow : Decision
  | deny : DenyReason → Decision
deriving DecidableEq, Repr

/-! ## Permission Evaluator and Layered Cache (spec sections 4.4 and 4.7) -/

/-- Characters of a capability string before the first colon. -/
def takeUntilColon : List Char → List Char
  | [] => []
  | c :: cs => if c = ':' then [] else c :: takeUntilColon cs

/-- The resource part of a capability string: the text before the first
colon. -/
def resourceOf (cap : String) : String :=
  ⟨takeUntilColon cap.toList⟩

/-- Modelled from the spec: the documented resource-star suffix convention,
section 4.4 — a capability of the shape resource followed by colon star
means all actions on that resource. -/
def isWildcardCap (cap : String) : Bool :=
  cap = resourceOf cap ++ ":*"

/-- Modelled from the spec: a granted capability satisfies a required one
exactly, or through the resource-star convention when the resource parts
agree, section 4.4. -/
def capMatches (granted required : String) : Bool :=
  granted = required ∨ (isWildcardCap granted ∧ resourceOf granted = resourceOf required)

/-- Modelled from the spec: membership of the required capability in a
capability set, section 4.4. -/
def hasCapability (caps : List String) (required : String) : Bool :=
  caps.any fun c => capMatches c required

/-- Modelled from the spec: the state the Permission Evaluator reads
through the Layered Cache — the identity system of record plus the
process-local and distributed cache layers, all keyed by identity id,
sections 4.4 and 4.7. -/
structure EvalState : Type where
  identityStore : List (String × Identity)
  localCache : List (String × Identity)
  distCache : List (String × Identity)
deriving DecidableEq, Repr

/-- Modelled from the spec: the Layered Cache get path of section 4.7 —
process-local cache, then distributed cache (populating the local layer),
then the system of record (populating both layers). -/
def cachedIdentity (s : EvalState) (idKey : String) : Option Identity × EvalState :=
  match alookup s.localCache idKey with
  | some v => (some v, s)
  | none =>
    match alookup s.distCache idKey with
    | some v => (some v, { s with localCache := aset s.localCache idKey v })
    | none =>
      match alookup s.identityStore idKey with
      | some v =>
        (some v,
         { s with
            localCache := aset s.localCache idKey v,
            distCache := aset s.distCache idKey v })
      | none => (none, s)

/-- Modelled from the spec: authorize of section 4.4 — (1) compare the
embedded identity version with the live Identity version read through the
Layered Cache, denying with StalePermissions on mismatch; (2) check the
required capability against the claims capability snapshot; deny is the
default (fail-closed). -/
def authorize (s : EvalState) (claims : Claims) (required : String) : Decision × EvalState :=
  match cachedIdentity s claims.identityId with
  | (none, s1) => (.deny .identityNotFound, s1)
  | (some ident, s1) =>
    if claims.identityVersion = ident.version then
      if hasCapability claims.capabilities required then (.allow, s1)
      else (.deny .insufficientPermissions, s1)
    else (.deny .stalePermissions, s1)

/-- Modelled from the spec: the revoke mutation of section 4.4 — remove the
capability, increment the Identity version, and synchronously invalidate
both cache layers for that identity before returning. -/
def revokeCapability (s : EvalState) (idKey : String) (cap : String) : EvalState :=
  match alookup s.identityStore idKey with
  | none => s
  | some ident =>
    { identityStore :=
        aset s.identityStore idKey
          { ident with
              capabilities := ident.capabilities.filter (fun c => !(c = cap : Bool)),
              version := ident.version + 1 }
      localCache := aerase s.localCache idKey
      distCache := aerase s.distCache idKey }

/-- C1: whatever the process-local and distributed cache layers hold,
revoking a capability and then calling authorize with claims issued before
the revocation (claims whose embedded version equals the pre-revocation
identity version) denies with StalePermissions and never allows, for every
required capability. -/
theorem revoked_capability_token_is_stale
    (s : EvalState) (ident : Identity) (claims : Claims) (cap required : String)
    (hstore : alookup s.identityStore claims.identityId = some ident)
    (hver : claims.identityVersion = ident.version) :
    (authorize (revokeCapability s claims.identityId cap) claims required).1 =
      .deny .stalePermissions ∧
    (authorize (revokeCapability s claims.identityId cap) claims required).1 ≠ .allow := by
  have hrev : revokeCapability s claims.identityId cap =
      { identityStore :=
          aset s.identityStore claims.identityId
            { ident with
                capabilities := ident.capabilities.filter (fun c => !(c = cap : Bool)),
                version := ident.version + 1 }
        localCache := aerase s.localCache claims.identityId
        distCache := aerase s.distCache claims.identityId } := by
    rw [revokeCapability, hstore]
  have hmain :
      (authorize (revokeCapability s claims.identityId cap) claims required).1 =
        .deny .stalePermissions := by
    rw [hrev]
    simp only [authorize, cachedIdentity, alookup_aerase, alookup_aset]
    have hne : ¬ claims.identityVersion = ident.version + 1 := by
      rw [hver]; omega
    simp [hne]
  exact ⟨hmain, by rw [hmain]; intro hcontra; exact Decision.noConfusion hcontra⟩

/-- Concrete pre-revocation state for the C1 witness: the identity is
present in the store and, to exercise cache-state independence, stale
copies sit in both cache layers. -/
def evalWitnessState : EvalState :=
  let u : Identity := ⟨"u1", "t1", "h", .active, ["resources:write"], 3⟩
  ⟨[("u1", u)], [("u1", u)], [("u1", u)]⟩

/-- Concrete claims issued before the revocation for the C1 witness. -/
def staleClaims : Claims :=
  ⟨"u1", "t1", ["resources:write"], 3, "s1"⟩

/-- C1 witness: on the concrete state, revoking resources:write and then
authorizing the pre-revocation claims denies with StalePermissions. -/
theorem revoked_capability_token_is_stale_witness :
    alookup evalWitnessState.identityStore staleClaims.identityId =
      some ⟨"u1", "t1", "h", .active, ["resources:write"], 3⟩ ∧
    staleClaims.identityVersion = (3 : Nat) ∧
    (authorize (revokeCapability evalWitnessState staleClaims.identityId "resources:write")
        staleClaims "resources:write").1 = .deny .stalePermissions :=
  ⟨by decide, by decide,
   (revoked_capability_token_is_stale evalWitnessState
      ⟨"u1", "t1", "h", .active, ["resources:write"], 3⟩ staleClaims
      "resources:write" "resources:write" (by decide) (by decide)).1⟩

theorem capMatches_iff (g r : String) :
    capMatches g r = true ↔
      g = r ∨ (isWildcardCap g = true ∧ resourceOf g = resourceOf r) := by
  simp [capMatches]

theorem hasCapability_iff (caps : List String) (r : String) :
    hasCapability caps r = true ↔
      ∃ c ∈ caps, c = r ∨ (isWildcardCap c = true ∧ resourceOf c = resourceOf r) := by
  simp only [hasCapability, List.any_eq_true]
  constructor
  · rintro ⟨c, hc, hm⟩
    exact ⟨c, hc, (capMatches_iff c r).mp hm⟩
  · rintro ⟨c, hc, hm⟩
    exact ⟨c, hc, (capMatches_iff c r).mpr hm⟩

/-- C4: with claims whose embedded version matches the live identity
version, authorize allows exactly when the required capability is a member
of the claims capability snapshot by exact string equality or matches a
resource-star entry with the same resource part; when neither rule matches,
the result is the fail-closed insufficient-permissions deny. -/
theorem authorize_allow_iff_capability_match
    (s : EvalState) (ident : Identity) (claims : Claims) (required : String)
    (hc : (cachedIdentity s claims.identityId).1 = some ident)
    (hver : claims.identityVersion = ident.version) :
    ((authorize s claims required).1 = .allow ↔
      ∃ c ∈ claims.capabilities,
        c = required ∨ (isWildcardCap c = true ∧ resourceOf c = resourceOf required)) ∧
    ((¬ ∃ c ∈ claims.capabilities,
        c = required ∨ (isWildcardCap c = true ∧ resourceOf c = resourceOf required)) →
      (authorize s claims required).1 = .deny .insufficientPermissions) := by
  rcases hp : cachedIdentity s claims.identityId with ⟨res, s1⟩
  have hres : res = some ident := by rw [hp] at hc; exact hc
  subst hres
  have hauth1 : (authorize s claims required).1 =
      (if hasCapability claims.capabilities required then Decision.allow
       else .deny .insufficientPermissions) := by
    simp only [authorize, hp]
    rw [if_pos hver]
    by_cases hb : hasCapability claims.capabilities required = true
    · rw [if_pos hb, if_pos hb]
    · rw [if_neg hb, if_neg hb]
  refine ⟨?_, ?_⟩
  · rw [hauth1]
    by_cases hb : hasCapability claims.capabilities required = true
    · rw [if_pos hb]
      exact iff_of_true rfl ((hasCapability_iff claims.capabilities required).mp hb)
    · rw [if_neg hb]
      exact iff_of_false (by intro h; cases h)
        (fun hex => hb ((hasCapability_iff claims.capabilities required).mpr hex))
  · intro hnex
    rw [hauth1, if_neg (fun hb => hnex ((hasCapability_iff claims.capabilities required).mp hb))]

/-- Concrete claims with a wildcard capability for the C4 witness. -/
def wildcardClaims : Claims :=
  ⟨"u1", "t1", ["resources:*"], 3, "s1"⟩

/-- C4 witness: on the concrete state, claims holding resources:* with a
matching identity version are allowed the resources:write capability. -/
theorem authorize_allow_iff_capability_match_witness :
    (cachedIdentity evalWitnessState wildcardClaims.identityId).1 =
      some ⟨"u1", "t1", "h", .active, ["resources:write"], 3⟩ ∧
    wildcardClaims.identityVersion = (3 : Nat) ∧
    (authorize evalWitnessState wildcardClaims "resources:write").1 = .allow :=
  ⟨by decide, by decide,
   (authorize_allow_iff_capability_match evalWitnessState
      ⟨"u1", "t1", "h", .active, ["resources:write"], 3⟩ wildcardClaims
      "resources:write" (by decide) (by decide)).1.mpr
     ⟨"resources:*", by decide, Or.inr ⟨by decide, by decide⟩⟩⟩

/-! ## Session Registry (spec section 4.3) -/

/-- Modelled from the spec: a Session record of the registry, section 3
(session id as the map key, identity id, tenant id, revoked flag). -/
structure SessionRec : Type where
  identityId : String
  tenantId : String
  revoked : Bool
deriving DecidableEq, Repr

/-- Modelled from the spec: one refresh-token entry of the registry,
section 4.3 — a token resolves to its session and remembers whether it was
already rotated (consumed). -/
structure TokenRec : Type where
  sessionId : String
  consumed : Bool
deriving DecidableEq, Repr

/-- Modelled from the spec: failures of resolve and rotate, sections 4.3
and 7. -/
inductive RefreshError : Type
  | invalidToken : RefreshError
  | revoked : RefreshError
  | reuseDetected : RefreshError
deriving DecidableEq, Repr

/-- Modelled from the spec: the Session Registry state — sessions keyed by
session id, refresh tokens keyed by token, and the audit log the registry
appends to. -/
structure RegState : Type where
  sessions : List (String × SessionRec)
  tokens : List (String × TokenRec)
  auditLog : List AuditEvent
deriving DecidableEq, Repr

/-- Modelled from the spec: the refresh operation of section 4.3 (resolve
plus rotate).  The token resolves to its session; a revoked lineage fails
with Revoked; a token that was already rotated trips reuse detection,
revoking the entire session lineage and emitting a
session.reuse_detected audit event; otherwise the old token is consumed
and a freshly generated token (passed as newToken, standing for the random
draw) is installed for the same session. -/
def refresh (st : RegState) (token newToken : String) : Except RefreshError String × RegState :=
  match alookup st.tokens token with
  | none => (.error .invalidToken, st)
  | some tr =>
    match alookup st.sessions tr.sessionId with
    | none => (.error .invalidToken, st)
    | some sess =>
      if sess.revoked then (.error .revoked, st)
      else if tr.consumed then
        (.error .reuseDetected,
         { st with
            sessions := aset st.sessions tr.sessionId { sess with revoked := true },
            auditLog :=
              ⟨sess.tenantId, some sess.identityId, "session.reuse_detected",
               .failure, .normal⟩ :: st.auditLog })
      else
        (.ok newToken,
         { st with
            tokens :=
              aset (aset st.tokens token { tr with consumed := true }) newToken
                ⟨tr.sessionId, false⟩ })

theorem refresh_ok_eq (st : RegState) (t0 t1 : String) (tr : TokenRec) (sess : SessionRec)
    (htok : alookup st.tokens t0 = some tr)
    (hsess : alookup st.sessions tr.sessionId = some sess)
    (hrev : sess.revoked = false) (hcons : tr.consumed = false) :
    refresh st t0 t1 =
      (.ok t1,
       { st with
          tokens :=
            aset (aset st.tokens t0 { tr with consumed := true }) t1
              ⟨tr.sessionId, false⟩ }) := by
  simp [refresh, htok, hsess, hrev, hcons]

theorem refresh_reuse_eq (st : RegState) (t0 t2 : String) (tr : TokenRec) (sess : SessionRec)
    (htok : alookup st.tokens t0 = some tr)
    (hsess : alookup st.sessions tr.sessionId = some sess)
    (hrev : sess.revoked = false) (hcons : tr.consumed = true) :
    refresh st t0 t2 =
      (.error .reuseDetected,
       { st with
          sessions := aset st.sessions tr.sessionId { sess with revoked := true },
          auditLog :=
            ⟨sess.tenantId, some sess.identityId, "session.reuse_detected",
             .failure, .normal⟩ :: st.auditLog }) := by
  simp [refresh, htok, hsess, hrev, hcons]

theorem refresh_revoked_eq (st : RegState) (t0 t2 : String) (tr : TokenRec) (sess : SessionRec)
    (htok : alookup st.tokens t0 = some tr)
    (hsess : alookup st.sessions tr.sessionId = some sess)
    (hrev : sess.revoked = true) :
    refresh st t0 t2 = (.error .revoked, st) := by
  simp [refresh, htok, hsess, hrev]

/-- C2: starting from any registry state holding a live session and an
unconsumed refresh token for it, one successful refresh rotates the token;
presenting the consumed token again yields ReuseDetected, revokes the whole
session lineage and records a session.reuse_detected audit event; and every
subsequent refresh, with the old token or with the newly issued one, fails
with Revoked while leaving the registry state untouched (so the failure
repeats on all later attempts). -/
theorem refresh_token_reuse_revokes_lineage
    (st : RegState) (t0 t1 t2 t3 : String) (tr : TokenRec) (sess : SessionRec)
    (htok : alookup st.tokens t0 = some tr)
    (hcons : tr.consumed = false)
    (hsess : alookup st.sessions tr.sessionId = some sess)
    (hrev : sess.revoked = false)
    (hfresh : t1 ≠ t0) :
    (refresh st t0 t1).1 = .ok t1 ∧
    (refresh (refresh st t0 t1).2 t0 t2).1 = .error .reuseDetected ∧
    (∃ ev ∈ (refresh (refresh st t0 t1).2 t0 t2).2.auditLog,
      ev.action = "session.reuse_detected") ∧
    (refresh (refresh (refresh st t0 t1).2 t0 t2).2 t0 t3) =
      (.error .revoked, (refresh (refresh st t0 t1).2 t0 t2).2) ∧
    (refresh (refresh (refresh st t0 t1).2 t0 t2).2 t1 t3) =
      (.error .revoked, (refresh (refresh st t0 t1).2 t0 t2).2) := by
  have h1 := refresh_ok_eq st t0 t1 tr sess htok hsess hrev hcons
  rw [h1]
  have htokA : alookup
      (aset (aset st.tokens t0 { tr with consumed := true }) t1
        ⟨tr.sessionId, false⟩) t0 = some { tr with consumed := true } :=
    calc alookup (aset (aset st.tokens t0 { tr with consumed := true }) t1
            ⟨tr.sessionId, false⟩) t0
        = alookup (aset st.tokens t0 { tr with consumed := true }) t0 :=
          alookup_aset_ne _ _ _ _ (fun h => hfresh h.symm)
      _ = some { tr with consumed := true } := alookup_aset _ _ _
  have h2 := refresh_reuse_eq
    { st with
        tokens :=
          aset (aset st.tokens t0 { tr with consumed := true }) t1
            ⟨tr.sessionId, false⟩ }
    t0 t2 { tr with consumed := true } sess htokA hsess hrev rfl
  rw [h2]
  have hsessB : alookup
      (aset st.sessions tr.sessionId { sess with revoked := true }) tr.sessionId =
      some { sess with revoked := true } := alookup_aset _ _ _
  have htokBnew : alookup
      (aset (aset st.tokens t0 { tr with consumed := true }) t1
        ⟨tr.sessionId, false⟩) t1 = some ⟨tr.sessionId, false⟩ :=
    alookup_aset _ _ _
  have h3 := refresh_revoked_eq
    { st with
        sessions := aset st.sessions tr.sessionId { sess with revoked := true },
        tokens :=
          aset (aset st.tokens t0 { tr with consumed := true }) t1
            ⟨tr.sessionId, false⟩,
        auditLog :=
          ⟨sess.tenantId, some sess.identityId, "session.reuse_detected",
           .failure, .normal⟩ :: st.auditLog }
    t0 t3 { tr with consumed := true } { sess with revoked := true } htokA hsessB rfl
  have h4 := refresh_revoked_eq
    { st with
        sessions := aset st.sessions tr.sessionId { sess with revoked := true },
        tokens :=
          aset (aset st.tokens t0 { tr with consumed := true }) t1
            ⟨tr.sessionId, false⟩,
        auditLog :=
          ⟨sess.tenantId, some sess.identityId, "session.reuse_detected",
           .failure, .normal⟩ :: st.auditLog }
    t1 t3 ⟨tr.sessionId, false⟩ { sess with revoked := true } htokBnew hsessB rfl
  refine ⟨rfl, rfl, ?_, ?_, ?_⟩
  · exact ⟨⟨sess.tenantId, some sess.identityId, "session.reuse_detected",
      .failure, .normal⟩, List.mem_cons_self _ _, rfl⟩
  · exact h3
  · exact h4

/-- Concrete registry for the C2 witness: one live session with one
unconsumed refresh token. -/
def regWitnessState : RegState :=
  ⟨[("s1", ⟨"u1", "t1", false⟩)], [("r0", ⟨"s1", false⟩)], []⟩

/-- C2 witness: on the concrete registry, refreshing r0 succeeds, replaying
r0 trips reuse detection, and afterwards both r0 and the new token r1 fail
with Revoked. -/
theorem refresh_token_reuse_revokes_lineage_witness :
    (refresh regWitnessState "r0" "r1").1 = .ok "r1" ∧
    (refresh (refresh regWitnessState "r0" "r1").2 "r0" "r2").1 = .error .reuseDetected ∧
    (refresh (refresh (refresh regWitnessState "r0" "r1").2 "r0" "r2").2 "r0" "r3").1 =
      .error .revoked ∧
    (refresh (refresh (refresh regWitnessState "r0" "r1").2 "r0" "r2").2 "r1" "r3").1 =
      .error .revoked := by
  have h := refresh_token_reuse_revokes_lineage regWitnessState "r0" "r1" "r2" "r3"
    ⟨"s1", false⟩ ⟨"u1", "t1", false⟩ (by decide) (by decide) (by decide) (by decide)
    (by decide)
  exact ⟨h.1, h.2.1, by rw [h.2.2.2.1], by rw [h.2.2.2.2]⟩

/-- Modelled from the spec: revoke of section 4.3, used by logout — mark
the session revoked and report success; on an already-revoked or unknown
session it is a no-op that still reports success (idempotence). -/
def revoke (st : RegState) (sessionId : String) : Bool × RegState :=
  match alookup st.sessions sessionId with
  | none => (true, st)
  | some sess =>
    (true, { st with sessions := aset st.sessions sessionId { sess with revoked := true } })

/-- Modelled from the spec: the per-session marking used by revokeAll. -/
def markRevoked (identityId : String) (p : String × SessionRec) : String × SessionRec :=
  if p.2.identityId = identityId then (p.1, { p.2 with revoked := true }) else p

/-- Modelled from the spec: revokeAll of section 4.3, used on
logout-everywhere and password change — mark every session of the identity
revoked and report success. -/
def revokeAll (st : RegState) (identityId : String) : Bool × RegState :=
  (true, { st with sessions := st.sessions.map (markRevoked identityId) })

theorem markRevoked_markRevoked (iid : String) (p : String × SessionRec) :
    markRevoked iid (markRevoked iid p) = markRevoked iid p := by
  by_cases hp : p.2.identityId = iid
  · simp [markRevoked, hp]
  · simp [markRevoked, hp]

theorem map_markRevoked_idem (iid : String) (l : List (String × SessionRec)) :
    (l.map (markRevoked iid)).map (markRevoked iid) = l.map (markRevoked iid) := by
  induction l with
  | nil => rfl
  | cons p t ih => simp [markRevoked_markRevoked, ih]

/-- C6: logout (revoke) is idempotent — it reports success on every state,
a second call on the resulting state reports success again and leaves the
state exactly as one call left it; revokeAll per identity enjoys the same
idempotence. -/
theorem revoke_and_revokeAll_idempotent (st : RegState) (sid iid : String) :
    (revoke st sid).1 = true ∧
    (revoke (revoke st sid).2 sid).1 = true ∧
    (revoke (revoke st sid).2 sid).2 = (revoke st sid).2 ∧
    (revokeAll st iid).1 = true ∧
    (revokeAll (revokeAll st iid).2 iid).1 = true ∧
    (revokeAll (revokeAll st iid).2 iid).2 = (revokeAll st iid).2 := by
  have hfst : ∀ s k, (revoke s k).1 = true := by
    intro s k
    unfold revoke
    cases alookup s.sessions k
    · rfl
    · rfl
  have hstate : (revoke (revoke st sid).2 sid).2 = (revoke st sid).2 := by
    cases hl : alookup st.sessions sid with
    | none =>
      have h1 : revoke st sid = (true, st) := by rw [revoke, hl]
      rw [h1, h1]
    | some sess =>
      have h1 : revoke st sid =
          (true, { st with sessions := aset st.sessions sid { sess with revoked := true } }) := by
        rw [revoke, hl]
      have hl2 : alookup (revoke st sid).2.sessions sid = some { sess with revoked := true } := by
        rw [h1]
        exact alookup_aset _ _ _
      have h2 : revoke (revoke st sid).2 sid =
          (true,
           { (revoke st sid).2 with
              sessions :=
                aset (revoke st sid).2.sessions sid { sess with revoked := true } }) := by
        rw [revoke, hl2]
      rw [h2, h1]
      simp [aset_aset]
  refine ⟨hfst st sid, hfst _ sid, hstate, rfl, rfl, ?_⟩
  simp only [revokeAll]
  rw [map_markRevoked_idem]

/-! ## Tenant Guard (spec section 4.5) -/

/-- Modelled from the spec: the outcome of the Tenant Guard — either the
operation is permitted, together with the audit events the guard records,
or it is rejected with a reason. -/
inductive GuardResult : Type
  | permitted : List AuditEvent → GuardResult
  | rejected : DenyReason → GuardResult
deriving DecidableEq, Repr

/-- Modelled from the spec: the Tenant Guard of section 4.5 — pure and
stateless; it rejects with TenantMismatch when the resource tenant id
differs from claims.tenantId, unless the caller carries the explicit
cross-tenant:admin capability, in which case the crossing is permitted and
an elevated-severity AuditEvent is recorded. -/
def tenantGuard (claims : Claims) (resourceTenantId : String) : GuardResult :=
  if claims.tenantId = resourceTenantId then .permitted []
  else if claims.capabilities.contains "cross-tenant:admin" then
    .permitted
      [⟨claims.tenantId, some claims.identityId, "tenant.cross_tenant_access",
        .success, .elevated⟩]
  else .rejected .tenantMismatch

/-- C3: on a resource whose tenant id differs from the claims tenant id,
the guard rejects with TenantMismatch whenever the caller lacks
cross-tenant:admin, and when the caller holds cross-tenant:admin it
permits the operation while recording an elevated-severity AuditEvent.
The guard takes no cache argument at all — it is pure per section 5 — so
both outcomes are independent of any cache state. -/
theorem cross_tenant_guard_behaviour (claims : Claims) (resourceTenantId : String)
    (hdiff : claims.tenantId ≠ resourceTenantId) :
    (claims.capabilities.contains "cross-tenant:admin" = false →
      tenantGuard claims resourceTenantId = .rejected .tenantMismatch) ∧
    (claims.capabilities.contains "cross-tenant:admin" = true →
      ∃ audit, tenantGuard claims resourceTenantId = .permitted audit ∧
        ∃ ev ∈ audit, ev.severity = .elevated) := by
  constructor
  · intro hno
    rw [tenantGuard, if_neg hdiff, hno]
    rfl
  · intro hyes
    rw [tenantGuard, if_neg hdiff, hyes]
    exact ⟨_, rfl,
      ⟨⟨claims.tenantId, some claims.identityId, "tenant.cross_tenant_access",
        .success, .elevated⟩, List.mem_singleton.mpr rfl, rfl⟩⟩

/-- Concrete claims without the cross-tenant capability for the C3
witness. -/
def plainClaims : Claims :=
  ⟨"u1", "t1", ["resources:read"], 1, "s1"⟩

/-- Concrete claims holding cross-tenant:admin for the C3 witness. -/
def adminClaims : Claims :=
  ⟨"u2", "t1", ["cross-tenant:admin"], 1, "s2"⟩

/-- C3 witness: accessing a resource of tenant t2 from tenant t1 is
rejected with TenantMismatch without cross-tenant:admin and permitted with
an elevated audit event with it. -/
theorem cross_tenant_guard_behaviour_witness :
    tenantGuard plainClaims "t2" = .rejected .tenantMismatch ∧
    ∃ audit, tenantGuard adminClaims "t2" = .permitted audit ∧
      ∃ ev ∈ audit, ev.severity = .elevated := by
  refine ⟨(cross_tenant_guard_behaviour plainClaims "t2" (by decide)).1 (by decide), ?_⟩
  exact (cross_tenant_guard_behaviour adminClaims "t2" (by decide)).2 (by decide)

/-! ## Credential Verifier (spec section 4.1) -/

/-- Modelled from the spec: verify failures of section 4.1. -/
inductive VerifyFail : Type
  | notFound : VerifyFail
  | locked : VerifyFail
  | invalidCredential : VerifyFail
deriving DecidableEq, Repr

/-- Modelled from the spec: the Credential Verifier state — identities
keyed by (tenant id, identifier), the per-identity consecutive failure
counter of section 4.1, and the audit log. -/
structure VerifierState : Type where
  identities : List ((String × String) × Identity)
  failCounts : List ((String × String) × Nat)
  auditLog : List AuditEvent
deriving DecidableEq, Repr

/-- Modelled from the spec: verify of section 4.1.  It looks up the
identity by (tenantId, identifier); fails with NotFound when absent,
Locked when the status is locked, InvalidCredential when the hash
comparison fails; a success resets the failure counter; a failure
increments it, and when the count reaches the threshold maxFailures (the N
consecutive failures of the sliding window) the identity transitions to
locked and an AuditEvent with outcome failure is recorded.  The hash
function is passed in, standing for the password hashing primitive. -/
def verify (hash : String → String) (maxFailures : Nat) (st : VerifierState)
    (tenantId identifier secret : String) : Except VerifyFail Identity × VerifierState :=
  match alookup st.identities (tenantId, identifier) with
  | none => (.error .notFound, st)
  | some ident =>
    if ident.status = .locked then (.error .locked, st)
    else if hash secret = ident.credentialHash then
      (.ok ident, { st with failCounts := aset st.failCounts (tenantId, identifier) 0 })
    else
      let n := (alookup st.failCounts (tenantId, identifier)).getD 0 + 1
      if maxFailures ≤ n then
        (.error .invalidCredential,
         { st with
            identities :=
              aset st.identities (tenantId, identifier) { ident with status := .locked },
            failCounts := aset st.failCounts (tenantId, identifier) n,
            auditLog :=
              ⟨tenantId, some ident.idTag, "auth.lockout", .failure, .normal⟩ ::
                st.auditLog })
      else
        (.error .invalidCredential,
         { st with failCounts := aset st.failCounts (tenantId, identifier) n })

/-- Iterate verify k times with the same credentials, threading the
state. -/
def verifyTimes (hash : String → String) (maxFailures : Nat) (k : Nat) (st : VerifierState)
    (tenantId identifier secret : String) : VerifierState :=
  match k with
  | 0 => st
  | k + 1 =>
    verifyTimes hash maxFailures k
      (verify hash maxFailures st tenantId identifier secret).2 tenantId identifier secret

theorem verify_fail_step (hash : String → String) (N : Nat) (st : VerifierState)
    (tid idf secret : String) (ident : Identity) (c : Nat)
    (hid : alookup st.identities (tid, idf) = some ident)
    (hact : ident.status = .active)
    (hmiss : ¬ hash secret = ident.credentialHash)
    (hcnt : (alookup st.failCounts (tid, idf)).getD 0 = c)
    (hlt : c + 1 < N) :
    (verify hash N st tid idf secret).2 =
      { st with failCounts := aset st.failCounts (tid, idf) (c + 1) } := by
  have hnl : ¬ ident.status = .locked := by
    rw [hact]; exact fun h => IdStatus.noConfusion h
  have hle : ¬ N ≤ c + 1 := by omega
  simp [verify, hid, hnl, hmiss, hcnt, hle]

theorem verify_lockout_step (hash : String → String) (N : Nat) (st : VerifierState)
    (tid idf secret : String) (ident : Identity)
    (hid : alookup st.identities (tid, idf) = some ident)
    (hact : ident.status = .active)
    (hmiss : ¬ hash secret = ident.credentialHash)
    (hcnt : (alookup st.failCounts (tid, idf)).getD 0 + 1 = N) :
    verify hash N st tid idf secret =
      (.error .invalidCredential,
       { st with
          identities :=
            aset st.identities (tid, idf) { ident with status := .locked },
          failCounts := aset st.failCounts (tid, idf) N,
          auditLog :=
            ⟨tid, some ident.idTag, "auth.lockout", .failure, .normal⟩ ::
              st.auditLog }) := by
  have hnl : ¬ ident.status = .locked := by
    rw [hact]; exact fun h => IdStatus.noConfusion h
  have hle : N ≤ (alookup st.failCounts (tid, idf)).getD 0 + 1 := by omega
  simp [verify, hid, hnl, hmiss, hle, hcnt]

theorem verify_locked_eq (hash : String → String) (N : Nat) (st : VerifierState)
    (tid idf secret : String) (ident : Identity)
    (hid : alookup st.identities (tid, idf) = some ident)
    (hlock : ident.status = .locked) :
    verify hash N st tid idf secret = (.error .locked, st) := by
  simp [verify, hid, hlock]

theorem verifyTimes_succ_right (hash : String → String) (N k : Nat) (st : VerifierState)
    (tid idf secret : String) :
    verifyTimes hash N (k + 1) st tid idf secret =
      (verify hash N (verifyTimes hash N k st tid idf secret) tid idf secret).2 := by
  induction k generalizing st with
  | zero => rfl
  | succ k ih =>
    show verifyTimes hash N (k + 1) (verify hash N st tid idf secret).2 tid idf secret = _
    rw [ih]
    rfl

theorem verifyTimes_below (hash : String → String) (N : Nat) (tid idf secret : String)
    (ident : Identity)
    (hact : ident.status = .active)
    (hmiss : ¬ hash secret = ident.credentialHash) :
    ∀ k st c, alookup st.identities (tid, idf) = some ident →
      (alookup st.failCounts (tid, idf)).getD 0 = c →
      c + k < N →
      (verifyTimes hash N k st tid idf secret).identities = st.identities ∧
      (verifyTimes hash N k st tid idf secret).auditLog = st.auditLog ∧
      (alookup (verifyTimes hash N k st tid idf secret).failCounts (tid, idf)).getD 0 =
        c + k := by
  intro k
  induction k with
  | zero =>
    intro st c h1 h2 _
    exact ⟨rfl, rfl, by simpa using h2⟩
  | succ k ih =>
    intro st c h1 h2 h3
    have hstep := verify_fail_step hash N st tid idf secret ident c h1 hact hmiss h2
      (by omega)
    have hunfold : verifyTimes hash N (k + 1) st tid idf secret =
        verifyTimes hash N k (verify hash N st tid idf secret).2 tid idf secret := rfl
    rw [hunfold, hstep]
    have hid2 : alookup
        ({ st with failCounts := aset st.failCounts (tid, idf) (c + 1) } :
          VerifierState).identities (tid, idf) = some ident := h1
    have hcnt2 : (alookup
        ({ st with failCounts := aset st.failCounts (tid, idf) (c + 1) } :
          VerifierState).failCounts (tid, idf)).getD 0 = c + 1 := by
      simp [alookup_aset]
    obtain ⟨ha, hb, hc2⟩ := ih _ (c + 1) hid2 hcnt2 (by omega)
    exact ⟨ha, hb, by rw [hc2]; omega⟩

/-- C7: starting from any verifier state holding an active identity with a
zero consecutive-failure count, N consecutive failed credential
verifications (0 < N) transition the identity status to locked and record
an auth.lockout AuditEvent with outcome failure, and every subsequent
verify for that identity — whatever secret it presents — fails with
Locked. -/
theorem lockout_after_consecutive_failures (hash : String → String) (N : Nat)
    (st : VerifierState) (tid idf secret : String) (ident : Identity)
    (hid : alookup st.identities (tid, idf) = some ident)
    (hact : ident.status = .active)
    (hmiss : ¬ hash secret = ident.credentialHash)
    (hcnt : (alookup st.failCounts (tid, idf)).getD 0 = 0)
    (hN : 0 < N) :
    (∃ ident2,
      alookup (verifyTimes hash N N st tid idf secret).identities (tid, idf) =
        some ident2 ∧ ident2.status = .locked) ∧
    (∃ ev ∈ (verifyTimes hash N N st tid idf secret).auditLog,
      ev.action = "auth.lockout" ∧ ev.outcome = .failure) ∧
    (∀ secret2,
      (verify hash N (verifyTimes hash N N st tid idf secret) tid idf secret2).1 =
        .error .locked) := by
  obtain ⟨M, rfl⟩ : ∃ M, N = M + 1 := ⟨N - 1, by omega⟩
  have hiter := verifyTimes_succ_right hash (M + 1) M st tid idf secret
  obtain ⟨hidM, haudM, hcntM⟩ :=
    verifyTimes_below hash (M + 1) tid idf secret ident hact hmiss M st 0 hid hcnt
      (by omega)
  have hidM' : alookup (verifyTimes hash (M + 1) M st tid idf secret).identities
      (tid, idf) = some ident := by rw [hidM]; exact hid
  have hlock := verify_lockout_step hash (M + 1)
    (verifyTimes hash (M + 1) M st tid idf secret) tid idf secret ident hidM' hact hmiss
    (by rw [hcntM]; omega)
  have hfinal : verifyTimes hash (M + 1) (M + 1) st tid idf secret =
      { verifyTimes hash (M + 1) M st tid idf secret with
          identities :=
            aset (verifyTimes hash (M + 1) M st tid idf secret).identities (tid, idf)
              { ident with status := .locked },
          failCounts :=
            aset (verifyTimes hash (M + 1) M st tid idf secret).failCounts (tid, idf)
              (M + 1),
          auditLog :=
            ⟨tid, some ident.idTag, "auth.lockout", .failure, .normal⟩ ::
              (verifyTimes hash (M + 1) M st tid idf secret).auditLog } := by
    rw [hiter, hlock]
  refine ⟨⟨{ ident with status := .locked }, ?_, rfl⟩, ?_, ?_⟩
  · rw [hfinal]
    exact alookup_aset _ _ _
  · refine ⟨⟨tid, some ident.idTag, "auth.lockout", .failure, .normal⟩, ?_, rfl, rfl⟩
    rw [hfinal]
    exact List.mem_cons_self _ _
  · intro secret2
    have hidN : alookup (verifyTimes hash (M + 1) (M + 1) st tid idf secret).identities
        (tid, idf) = some { ident with status := .locked } := by
      rw [hfinal]
      exact alookup_aset _ _ _
    rw [verify_locked_eq hash (M + 1) _ tid idf secret2 { ident with status := .locked }
      hidN rfl]

/-- Concrete verifier state for the C7 witness: one active identity, no
recorded failures. -/
def verifierWitnessState : VerifierState :=
  ⟨[(("t1", "alice"), ⟨"u1", "t1", "hash-of-pw", .active, [], 1⟩)], [], []⟩

/-- Identity hash function used by the C7 witness. -/
def idHash : String → String := fun s => s

/-- C7 witness: with threshold 3, three consecutive wrong-password attempts
lock the account, record the failure audit event, and a fourth attempt —
even with the correct password — fails with Locked. -/
theorem lockout_after_consecutive_failures_witness :
    (∃ ident2,
      alookup (verifyTimes idHash 3 3 verifierWitnessState "t1" "alice" "wrong").identities
        ("t1", "alice") = some ident2 ∧ ident2.status = .locked) ∧
    (∃ ev ∈ (verifyTimes idHash 3 3 verifierWitnessState "t1" "alice" "wrong").auditLog,
      ev.action = "auth.lockout" ∧ ev.outcome = .failure) ∧
    (verify idHash 3 (verifyTimes idHash 3 3 verifierWitnessState "t1" "alice" "wrong")
        "t1" "alice" "hash-of-pw").1 = .error .locked := by
  have h := lockout_after_consecutive_failures idHash 3 verifierWitnessState "t1" "alice"
    "wrong" ⟨"u1", "t1", "hash-of-pw", .active, [], 1⟩ (by decide) rfl (by decide)
    (by decide) (by decide)
  exact ⟨h.1, h.2.1, h.2.2 "hash-of-pw"⟩

end ITP
